import Mathlib

/-!
Verification development for the simple CDN server (`server.js`).

The server is embedded shallowly:
* `checkDomain` models the origin-gate middleware;
* `processFile` / `multerSingle` model the multer file filter, size limit
  and single-file field handling;
* `parseName` models `path.parse(name).name` (POSIX rules) and
  `uniqueFilename` models the stored-name generation
  `` `${originalName}-${uuidv4()}.webp` ``;
* `postUpload`, `deleteRoute` and `getImage` model the three routes, over a
  flat association-list store; the sharp encoder and `fs.unlink` are
  parameters so that their failure modes can be quantified over.

Filenames are `List Char` so that the structural string processing
(basename extraction, extension stripping, substring checks) can be
reasoned about; origins, mime types and messages are `String`.
-/

set_option autoImplicit false

/-! ## Configuration constants from `server.js` -/

def allowedDomainsForCRUD : List String :=
  ["http://localhost:5500", "http://127.0.0.1:5500"]

def crudMethods : List String := ["POST", "DELETE", "PUT", "PATCH"]

def forbiddenMsg : String := "Forbidden: Akses dari domain ini tidak diizinkan."

def allowedMimes : List String :=
  ["image/jpeg", "image/png", "image/gif", "image/webp"]

def fileSizeLimit : Nat := 10 * 1024 * 1024

def invalidTypeMsg : String := "Jenis file tidak valid. Hanya gambar yang diizinkan."

def fileTooLargeMsg : String := "File too large"

def unexpectedFieldMsg : String := "Unexpected field"

def noFileMsg : String := "Tidak ada file gambar yang diunggah."

def uploadOkMsg : String := "Gambar berhasil diunggah dan dikonversi ke WebP."

def processErrMsg : String := "Terjadi kesalahan pada server saat memproses gambar."

def invalidNameMsg : String := "Nama file tidak valid."

def notFoundMsg : String := "File tidak ditemukan."

def deleteFailMsg : String := "Gagal menghapus file."

def deleteOkMsg : String := "File berhasil dihapus."

/-! ## Responses -/

/-- An HTTP response as the handlers build it: status code, the `message`
field of the JSON body, the `error` field echoed on processing failures,
the `filename` field of a successful upload, and raw bytes for static
file serving. -/
structure Resp where
  status : Nat
  message : String
  errText : Option String := none
  filename : Option (List Char) := none
  body : Option (List Nat) := none
deriving DecidableEq

def forbiddenResp : Resp := { status := 403, message := forbiddenMsg }

/-! ## Origin gate (`checkDomain` middleware) -/

/-- The `checkDomain` middleware: for CRUD methods it requires the request
origin to be present and listed in `allowedDomainsForCRUD`; otherwise it
short-circuits with a 403 response.  Returns `some r` when it responds
with `r`, `none` when it calls `next()`.  (In the JS source the test is
`origin && allowedDomainsForCRUD.includes(origin)`; an empty-string origin
is falsy there and is also not a member of the list, so modelling the test
as presence plus membership is exact.) -/
def checkDomain (method : String) (origin : Option String) : Option Resp :=
  if method ∈ crudMethods then
    match origin with
    | some o => if o ∈ allowedDomainsForCRUD then none else some forbiddenResp
    | none => some forbiddenResp
  else
    none

/-! ## Multer: file filter, size limit, single file field -/

/-- The in-memory uploaded file multer hands to the route handler.  Its
`size` in the JS object is the buffer length, so only the buffer is kept. -/
structure UploadedFile where
  originalname : List Char
  mimetype : String
  buffer : List Nat
deriving DecidableEq

/-- `fileFilter` from the multer options: accept exactly the four listed
image mime types. -/
def fileFilter (mimetype : String) : Bool := decide (mimetype ∈ allowedMimes)

/-- One file passing through multer: the `fileFilter` callback runs on the
file metadata before the body is buffered, and the `fileSize` limit rejects
a file whose byte length exceeds the limit (`MulterError LIMIT_FILE_SIZE`,
message "File too large"). -/
def processFile (f : UploadedFile) : Except String UploadedFile :=
  if fileFilter f.mimetype then
    if f.buffer.length ≤ fileSizeLimit then Except.ok f
    else Except.error fileTooLargeMsg
  else Except.error invalidTypeMsg

/-- `upload.single('image')`: zero files yield no `req.file`; one file is
processed; a further file in the field is `LIMIT_UNEXPECTED_FILE`
("Unexpected field").  An error here is turned into a 400 response by the
error-handling middleware at the bottom of `server.js`. -/
def multerSingle (files : List UploadedFile) : Except String (Option UploadedFile) :=
  match files with
  | [] => Except.ok none
  | f :: rest =>
    match processFile f with
    | Except.error m => Except.error m
    | Except.ok g =>
      if rest.isEmpty then Except.ok (some g) else Except.error unexpectedFieldMsg

/-! ## Filename generation: `path.parse(originalname).name` and the uuid -/

/-- The basename step of POSIX `path.parse`: drop trailing `/` separators,
then keep the final segment (everything after the last remaining `/`). -/
def basenameOf (l : List Char) : List Char :=
  ((l.reverse.dropWhile (fun c => decide (c = '/'))).takeWhile
      (fun c => decide (c ≠ '/'))).reverse

/-- The extension-stripping step of POSIX `path.parse` on a basename `b`:
the name is `b` without its extension, where the extension starts at the
last dot of `b` — except that a dot in first position starts no extension
(`.bashrc`), and the basename `..` has no extension. -/
def stripExt (b : List Char) : List Char :=
  if b = ['.', '.'] then b
  else
    match b.reverse.dropWhile (fun c => decide (c ≠ '.')) with
    | [] => b
    | _ :: pre => if pre = [] then b else pre.reverse

/-- `path.parse(l).name` for POSIX paths. -/
def parseName (l : List Char) : List Char := stripExt (basenameOf l)

def webpExt : List Char := ['.', 'w', 'e', 'b', 'p']

/-- The stored filename built by the upload handler:
`` `${path.parse(originalname).name}-${uuidv4()}.webp` ``. -/
def uniqueFilename (originalname uuid : List Char) : List Char :=
  parseName originalname ++ '-' :: uuid ++ webpExt

/-- A canonical `uuidv4()` rendering: 36 characters over lowercase hex
digits and hyphens. -/
def uuidAlphabet : List Char := "0123456789abcdef-".toList

def isCanonicalUuid (u : List Char) : Prop :=
  u.length = 36 ∧ ∀ c ∈ u, c ∈ uuidAlphabet

instance (u : List Char) : Decidable (isCanonicalUuid u) := by
  unfold isCanonicalUuid; infer_instance

/-! ## The store: the flat `public/images` directory -/

abbrev Bytes := List Nat

abbrev Store := List (List Char × Bytes)

def storeLookup (s : Store) (name : List Char) : Option Bytes :=
  (s.find? (fun e => decide (e.1 = name))).map (fun e => e.2)

def storePut (s : Store) (name : List Char) (b : Bytes) : Store := (name, b) :: s

def storeDel (s : Store) (name : List Char) : Store :=
  s.filter (fun e => decide (e.1 ≠ name))

/-- Outcome of `fs.unlink`: the handler distinguishes `ENOENT` from every
other error code. -/
inductive UnlinkErr
  | enoent
  | other
deriving DecidableEq

/-- The idealised filesystem `unlink` on the flat store: removing an
absent entry fails with `ENOENT`. -/
def fsUnlink (s : Store) (name : List Char) : Except UnlinkErr Store :=
  match storeLookup s name with
  | some _ => Except.ok (storeDel s name)
  | none => Except.error UnlinkErr.enoent

/-! ## Substring test (`String.prototype.includes`) -/

def startsWith : List Char → List Char → Bool
  | [], _ => true
  | _ :: _, [] => false
  | a :: pat, b :: l => decide (a = b) && startsWith pat l

/-- `l.includes(pat)` for strings as character lists. -/
def hasSub (pat : List Char) : List Char → Bool
  | [] => pat.isEmpty
  | c :: t => startsWith pat (c :: t) || hasSub pat t

def dotdot : List Char := ['.', '.']

/-! ## Routes -/

/-- `DELETE /delete/:filename`: origin gate, then the traversal check
`filename.includes('..') || filename.includes('/')`, then `fs.unlink` with
`ENOENT` mapped to 404, any other unlink error to 500, success to 200.
The unlink operation is a parameter so that its error modes can be
quantified over; `fsUnlink` is the idealised instance. -/
def deleteRoute (unlink : Store → List Char → Except UnlinkErr Store)
    (s : Store) (origin : Option String) (filename : List Char) : Resp × Store :=
  match checkDomain "DELETE" origin with
  | some r => (r, s)
  | none =>
    if hasSub dotdot filename || hasSub ['/'] filename then
      ({ status := 400, message := invalidNameMsg }, s)
    else
      match unlink s filename with
      | Except.error UnlinkErr.enoent => ({ status := 404, message := notFoundMsg }, s)
      | Except.error UnlinkErr.other => ({ status := 500, message := deleteFailMsg }, s)
      | Except.ok s2 => ({ status := 200, message := deleteOkMsg }, s2)

/-- `POST /upload`: origin gate, multer (errors become 400 via the error
middleware), the missing-file check, then the sharp re-encode (a parameter
`encode`; on failure the handler answers 500 and echoes `error.message` in
the `error` field), then the store write under `uniqueFilename`. -/
def postUpload (encode : Bytes → Except String Bytes) (uuid : List Char)
    (s : Store) (origin : Option String) (files : List UploadedFile) : Resp × Store :=
  match checkDomain "POST" origin with
  | some r => (r, s)
  | none =>
    match multerSingle files with
    | Except.error m => ({ status := 400, message := m }, s)
    | Except.ok none => ({ status := 400, message := noFileMsg }, s)
    | Except.ok (some f) =>
      match encode f.buffer with
      | Except.error em =>
        ({ status := 500, message := processErrMsg, errText := some em }, s)
      | Except.ok b =>
        ({ status := 201, message := uploadOkMsg,
           filename := some (uniqueFilename f.originalname uuid) },
         storePut s (uniqueFilename f.originalname uuid) b)

/-- `GET /images/:name` via `express.static`: a pure store lookup.  The
static middleware is mounted before any route and performs no origin
check, so the request origin is ignored. -/
def getImage (s : Store) (_origin : Option String) (name : List Char) : Resp :=
  match storeLookup s name with
  | some b => { status := 200, message := "", body := some b }
  | none => { status := 404, message := "" }

/-- Whether an `Except` outcome is a success. -/
def isOkB {ε α : Type} : Except ε α → Bool
  | Except.ok _ => true
  | Except.error _ => false

/-- Truncation of an uploaded file to the first `n` body bytes, as the
streaming transport would see it before the rest of the body arrives. -/
def truncateFile (n : Nat) (f : UploadedFile) : UploadedFile :=
  { f with buffer := f.buffer.take n }

/-! ## Concrete sample data (used by witnesses and the C9 counterexample) -/

def okEncode : Bytes → Except String Bytes := fun b => Except.ok b

/-- A realistic `sharp`/filesystem failure message for `.toFile`: such
messages embed the output path under the store directory. -/
def leakMsg : String :=
  "EACCES: permission denied, open /srv/cdn/public/images/cat-123.webp"

/-- An encoder failing the way `sharp(...).toFile(outputPath)` fails when
the store directory is not writable. -/
def badEncode : Bytes → Except String Bytes := fun _ => Except.error leakMsg

/-- The store-directory fragment of the server (`public/images`): a
response that contains it reveals an internal path. -/
def storePathFragment : List Char := "/public/images/".toList

def uuid0 : List Char := "123e4567-e89b-42d3-a456-426614174000".toList

def file0 : UploadedFile :=
  { originalname := "cat.jpg".toList, mimetype := "image/jpeg", buffer := [1, 2, 3] }

def origin0 : String := "http://localhost:5500"


/-! ## Helper lemmas -/

theorem startsWith_append (pat l m : List Char)
    (h : startsWith pat l = true) : startsWith pat (l ++ m) = true := by
  induction pat generalizing l with
  | nil => simp [startsWith]
  | cons a pat ih =>
    cases l with
    | nil => simp [startsWith] at h
    | cons b l =>
      simp only [startsWith, Bool.and_eq_true, decide_eq_true_eq] at h ⊢
      exact ⟨h.1, ih l (h.2)⟩

theorem hasSub_append_left (pat l m : List Char)
    (h : hasSub pat l = true) : hasSub pat (l ++ m) = true := by
  induction l with
  | nil =>
    simp [hasSub, List.isEmpty_iff] at h
    subst h
    cases m with
    | nil => simp [hasSub]
    | cons c t => simp [hasSub, startsWith]
  | cons c t ih =>
    simp only [hasSub, Bool.or_eq_true] at h
    rcases h with h | h
    · simp only [List.cons_append, hasSub, Bool.or_eq_true]
      exact Or.inl (startsWith_append pat (c :: t) m h)
    · simp only [List.cons_append, hasSub, Bool.or_eq_true]
      exact Or.inr (ih h)

theorem startsWith_refl (l : List Char) : startsWith l l = true := by
  induction l with
  | nil => rfl
  | cons a t ih => simp [startsWith, ih]

theorem hasSub_self (l : List Char) : hasSub l l = true := by
  cases l with
  | nil => rfl
  | cons a t => simp [hasSub, startsWith_refl]

theorem hasSub_singleton (c : Char) (l : List Char) (h : c ∈ l) :
    hasSub [c] l = true := by
  induction l with
  | nil => simp at h
  | cons b t ih =>
    rcases List.mem_cons.mp h with h | h
    · subst h
      simp [hasSub, startsWith]
    · simp [hasSub, ih h]

theorem takeWhile_all {p : Char → Bool} (l : List Char)
    (h : ∀ c ∈ l, p c = true) : l.takeWhile p = l := by
  induction l with
  | nil => rfl
  | cons a t ih =>
    have ha := h a (List.mem_cons_self a t)
    simp [List.takeWhile_cons, ha, ih fun c hc => h c (List.mem_cons_of_mem a hc)]

theorem dropWhile_all_false {p : Char → Bool} (l : List Char)
    (h : ∀ c ∈ l, p c = false) : l.dropWhile p = l := by
  cases l with
  | nil => rfl
  | cons a t => simp [List.dropWhile_cons, h a (List.mem_cons_self a t)]

theorem dropWhile_until_dot (l m : List Char) (h : ∀ c ∈ l, c ≠ '.') :
    (l ++ '.' :: m).dropWhile (fun c => decide (c ≠ '.')) = '.' :: m := by
  induction l with
  | nil => simp [List.dropWhile_cons]
  | cons a t ih =>
    have ha : a ≠ '.' := h a (List.mem_cons_self a t)
    have ha2 : (fun c => decide (c ≠ '.')) a = true := by simp [ha]
    rw [List.cons_append, List.dropWhile_cons, if_pos ha2]
    exact ih fun c hc => h c (List.mem_cons_of_mem a hc)

theorem basenameOf_no_slash (l : List Char) : '/' ∉ basenameOf l := by
  intro h
  unfold basenameOf at h
  rw [List.mem_reverse] at h
  have := List.mem_takeWhile_imp h
  simp at this

theorem stripExt_subset (b : List Char) : ∀ c ∈ stripExt b, c ∈ b := by
  intro c hc
  unfold stripExt at hc
  split at hc
  · exact hc
  · split at hc
    · exact hc
    · next x pre heq =>
      split at hc
      · exact hc
      · rw [List.mem_reverse] at hc
        have h1 : c ∈ x :: pre := List.mem_cons_of_mem x hc
        rw [← heq] at h1
        have h2 : c ∈ b.reverse := (List.dropWhile_sublist _).mem h1
        exact List.mem_reverse.mp h2

theorem parseName_no_slash (l : List Char) : '/' ∉ parseName l :=
  fun h => basenameOf_no_slash l (stripExt_subset (basenameOf l) '/' h)

theorem basenameOf_eq_self (l : List Char) (h : '/' ∉ l) : basenameOf l = l := by
  unfold basenameOf
  have h1 : ∀ c ∈ l.reverse, (fun c => decide (c = '/')) c = false := by
    intro c hc
    rw [List.mem_reverse] at hc
    simp only [decide_eq_false_iff_not]
    intro hcc
    subst hcc
    exact h hc
  rw [dropWhile_all_false _ h1]
  have h2 : ∀ c ∈ l.reverse, (fun c => decide (c ≠ '/')) c = true := by
    intro c hc
    rw [List.mem_reverse] at hc
    simp only [ne_eq, decide_not, Bool.not_eq_true', decide_eq_false_iff_not]
    intro hcc
    subst hcc
    exact h hc
  rw [takeWhile_all _ h2, List.reverse_reverse]

theorem stripExt_generated (x u : List Char) :
    stripExt (x ++ '-' :: u ++ webpExt) = x ++ '-' :: u := by
  have hne : x ++ '-' :: u ++ webpExt ≠ ['.', '.'] := by
    intro h
    have := congrArg List.length h
    simp [webpExt] at this
    omega
  have hrev : (x ++ '-' :: u ++ webpExt).reverse
      = ['p', 'b', 'e', 'w'] ++ '.' :: (u.reverse ++ '-' :: x.reverse) := by
    simp [webpExt]
  have hdw : (x ++ '-' :: u ++ webpExt).reverse.dropWhile (fun c => decide (c ≠ '.'))
      = '.' :: (u.reverse ++ '-' :: x.reverse) := by
    rw [hrev]
    exact dropWhile_until_dot _ _ (by decide)
  unfold stripExt
  rw [if_neg hne, hdw]
  have hpre : u.reverse ++ '-' :: x.reverse ≠ [] := by simp
  simp [hpre]

theorem uniqueFilename_no_slash (o u : List Char) (hu : '/' ∉ u) :
    '/' ∉ uniqueFilename o u := by
  intro h
  unfold uniqueFilename at h
  rcases List.mem_append.mp h with h | h
  · rcases List.mem_append.mp h with h | h
    · exact parseName_no_slash o h
    · rcases List.mem_cons.mp h with h | h
      · exact absurd h (by decide)
      · exact hu h
  · revert h
    decide

theorem uniqueFilename_ne (o u : List Char) (hu : isCanonicalUuid u) :
    uniqueFilename o u ≠ o := by
  obtain ⟨hlen, halpha⟩ := hu
  have hslash : '/' ∉ u := by
    intro h
    have := halpha '/' h
    revert this
    decide
  intro heq
  by_cases hs : '/' ∈ o
  · rw [← heq] at hs
    exact uniqueFilename_no_slash o u hslash hs
  · have h1 : parseName (uniqueFilename o u) = parseName o ++ '-' :: u := by
      unfold parseName
      rw [basenameOf_eq_self _ (uniqueFilename_no_slash o u hslash)]
      exact stripExt_generated (parseName o) u
    have h2 : parseName (uniqueFilename o u) = parseName o := by rw [heq]
    rw [h1] at h2
    have h3 := congrArg List.length h2
    simp at h3

theorem storeLookup_put_self (s : Store) (n : List Char) (b : Bytes) :
    storeLookup (storePut s n b) n = some b := by
  simp [storeLookup, storePut, List.find?]

theorem storeLookup_del_self (s : Store) (n : List Char) :
    storeLookup (storeDel s n) n = none := by
  unfold storeLookup storeDel
  rw [List.find?_eq_none.mpr]
  · rfl
  · intro x hx
    have hpred := (List.mem_filter.mp hx).2
    simp only [decide_eq_true_eq] at hpred ⊢
    simpa using hpred

theorem checkDomain_allowed (m : String) (hm : m ∈ crudMethods) (o : String)
    (h : o ∈ allowedDomainsForCRUD) : checkDomain m (some o) = none := by
  simp [checkDomain, hm, h]

theorem checkDomain_denied (m : String) (hm : m ∈ crudMethods)
    (origin : Option String)
    (h : origin = none ∨ ∀ o : String, origin = some o → o ∉ allowedDomainsForCRUD) :
    checkDomain m origin = some forbiddenResp := by
  cases origin with
  | none => simp [checkDomain, hm]
  | some o =>
    rcases h with h | h
    · exact absurd h (by simp)
    · simp [checkDomain, hm, h o rfl]

theorem checkDomain_some (m : String) (origin : Option String) (r : Resp)
    (h : checkDomain m origin = some r) : r = forbiddenResp := by
  cases origin with
  | none =>
    by_cases hm : m ∈ crudMethods
    · simp [checkDomain, hm] at h
      exact h.symm
    · simp [checkDomain, hm] at h
  | some o =>
    by_cases hm : m ∈ crudMethods
    · by_cases ho : o ∈ allowedDomainsForCRUD
      · simp [checkDomain, hm, ho] at h
      · simp [checkDomain, hm, ho] at h
        exact h.symm
    · simp [checkDomain, hm] at h

theorem processFile_valid (f : UploadedFile) (hmime : fileFilter f.mimetype = true)
    (hsize : f.buffer.length ≤ fileSizeLimit) : processFile f = Except.ok f := by
  simp [processFile, hmime, hsize]

theorem processFile_ok_eq (f g : UploadedFile) (h : processFile f = Except.ok g) :
    g = f := by
  unfold processFile at h
  split at h
  · split at h
    · injection h with h
      exact h.symm
    · cases h
  · cases h

theorem multerSingle_one (f : UploadedFile) (hmime : fileFilter f.mimetype = true)
    (hsize : f.buffer.length ≤ fileSizeLimit) :
    multerSingle [f] = Except.ok (some f) := by
  simp [multerSingle, processFile_valid f hmime hsize]

theorem multerSingle_ok_some (files : List UploadedFile) (g : UploadedFile)
    (h : multerSingle files = Except.ok (some g)) : files = [g] := by
  cases files with
  | nil => simp [multerSingle] at h
  | cons f rest =>
    cases rest with
    | nil =>
      simp only [multerSingle] at h
      cases hpf : processFile f with
      | error m =>
        rw [hpf] at h
        simp at h
      | ok g2 =>
        rw [hpf] at h
        simp at h
        rw [← h, processFile_ok_eq f g2 hpf]
    | cons f2 rest2 =>
      simp only [multerSingle] at h
      cases hpf : processFile f with
      | error m =>
        rw [hpf] at h
        simp at h
      | ok g2 =>
        rw [hpf] at h
        simp at h

theorem splitOn_no_sep (l : List Char) (h : '/' ∉ l) : l.splitOn '/' = [l] := by
  induction l with
  | nil => rfl
  | cons a t ih =>
    have ha : (a == '/') = false := by
      simp only [beq_eq_false_iff_ne, ne_eq]
      intro hh
      exact h (by simp [hh])
    have ht : '/' ∉ t := fun hh => h (List.mem_cons_of_mem a hh)
    simp only [List.splitOn] at ih ⊢
    rw [List.splitOnP_cons, ha]
    simp [ih ht]

theorem postUpload_success (encode : Bytes → Except String Bytes) (uuid : List Char)
    (s : Store) (o : String) (ho : o ∈ allowedDomainsForCRUD)
    (f : UploadedFile) (hmime : fileFilter f.mimetype = true)
    (hsize : f.buffer.length ≤ fileSizeLimit) (b : Bytes)
    (henc : encode f.buffer = Except.ok b) :
    postUpload encode uuid s (some o) [f] =
      ({ status := 201, message := uploadOkMsg,
         filename := some (uniqueFilename f.originalname uuid) },
       storePut s (uniqueFilename f.originalname uuid) b) := by
  have hcd := checkDomain_allowed "POST" (by decide) o ho
  simp [postUpload, hcd, multerSingle_one f hmime hsize, henc]

theorem postUpload_procfail (encode : Bytes → Except String Bytes) (uuid : List Char)
    (s : Store) (o : String) (ho : o ∈ allowedDomainsForCRUD)
    (f : UploadedFile) (hmime : fileFilter f.mimetype = true)
    (hsize : f.buffer.length ≤ fileSizeLimit) (em : String)
    (henc : encode f.buffer = Except.error em) :
    postUpload encode uuid s (some o) [f] =
      ({ status := 500, message := processErrMsg, errText := some em }, s) := by
  have hcd := checkDomain_allowed "POST" (by decide) o ho
  simp [postUpload, hcd, multerSingle_one f hmime hsize, henc]

theorem postUpload_multerErr (encode : Bytes → Except String Bytes) (uuid : List Char)
    (s : Store) (o : String) (ho : o ∈ allowedDomainsForCRUD)
    (files : List UploadedFile) (m : String)
    (hms : multerSingle files = Except.error m) :
    postUpload encode uuid s (some o) files = ({ status := 400, message := m }, s) := by
  have hcd := checkDomain_allowed "POST" (by decide) o ho
  simp [postUpload, hcd, hms]

theorem postUpload_noFile (encode : Bytes → Except String Bytes) (uuid : List Char)
    (s : Store) (o : String) (ho : o ∈ allowedDomainsForCRUD) :
    postUpload encode uuid s (some o) [] = ({ status := 400, message := noFileMsg }, s) := by
  have hcd := checkDomain_allowed "POST" (by decide) o ho
  simp [postUpload, hcd, multerSingle]

theorem postUpload_201_inv (encode : Bytes → Except String Bytes) (uuid : List Char)
    (s : Store) (origin : Option String) (files : List UploadedFile)
    (h : (postUpload encode uuid s origin files).1.status = 201) :
    ∃ f, files = [f] := by
  cases hcd : checkDomain "POST" origin with
  | some r =>
    have hr := checkDomain_some _ _ _ hcd
    subst hr
    simp [postUpload, hcd, forbiddenResp] at h
  | none =>
    cases hms : multerSingle files with
    | error m => simp [postUpload, hcd, hms] at h
    | ok fo =>
      cases fo with
      | none => simp [postUpload, hcd, hms] at h
      | some g => exact ⟨g, multerSingle_ok_some files g hms⟩

theorem deleteRoute_invalid (unlink : Store → List Char → Except UnlinkErr Store)
    (s : Store) (o : String) (ho : o ∈ allowedDomainsForCRUD) (name : List Char)
    (hbad : (hasSub dotdot name || hasSub ['/'] name) = true) :
    deleteRoute unlink s (some o) name = ({ status := 400, message := invalidNameMsg }, s) := by
  have hcd := checkDomain_allowed "DELETE" (by decide) o ho
  simp [deleteRoute, hcd, hbad]

theorem deleteRoute_enoent (unlink : Store → List Char → Except UnlinkErr Store)
    (s : Store) (o : String) (ho : o ∈ allowedDomainsForCRUD) (name : List Char)
    (hgood : (hasSub dotdot name || hasSub ['/'] name) = false)
    (hu : unlink s name = Except.error UnlinkErr.enoent) :
    deleteRoute unlink s (some o) name = ({ status := 404, message := notFoundMsg }, s) := by
  have hcd := checkDomain_allowed "DELETE" (by decide) o ho
  simp [deleteRoute, hcd, hgood, hu]

theorem deleteRoute_othererr (unlink : Store → List Char → Except UnlinkErr Store)
    (s : Store) (o : String) (ho : o ∈ allowedDomainsForCRUD) (name : List Char)
    (hgood : (hasSub dotdot name || hasSub ['/'] name) = false)
    (hu : unlink s name = Except.error UnlinkErr.other) :
    deleteRoute unlink s (some o) name = ({ status := 500, message := deleteFailMsg }, s) := by
  have hcd := checkDomain_allowed "DELETE" (by decide) o ho
  simp [deleteRoute, hcd, hgood, hu]

theorem deleteRoute_success (unlink : Store → List Char → Except UnlinkErr Store)
    (s : Store) (o : String) (ho : o ∈ allowedDomainsForCRUD) (name : List Char)
    (hgood : (hasSub dotdot name || hasSub ['/'] name) = false)
    (s2 : Store) (hu : unlink s name = Except.ok s2) :
    deleteRoute unlink s (some o) name = ({ status := 200, message := deleteOkMsg }, s2) := by
  have hcd := checkDomain_allowed "DELETE" (by decide) o ho
  simp [deleteRoute, hcd, hgood, hu]

theorem deleteRoute_cases (unlink : Store → List Char → Except UnlinkErr Store)
    (s : Store) (origin : Option String) (name : List Char) :
    deleteRoute unlink s origin name = (forbiddenResp, s) ∨
    deleteRoute unlink s origin name = ({ status := 400, message := invalidNameMsg }, s) ∨
    (∃ s2, unlink s name = Except.ok s2 ∧
      deleteRoute unlink s origin name = ({ status := 200, message := deleteOkMsg }, s2)) ∨
    deleteRoute unlink s origin name = ({ status := 404, message := notFoundMsg }, s) ∨
    deleteRoute unlink s origin name = ({ status := 500, message := deleteFailMsg }, s) := by
  cases hcd : checkDomain "DELETE" origin with
  | some r =>
    have hr := checkDomain_some _ _ _ hcd
    subst hr
    left
    simp [deleteRoute, hcd]
  | none =>
    cases hbad : (hasSub dotdot name || hasSub ['/'] name) with
    | true =>
      right; left
      simp [deleteRoute, hcd, hbad]
    | false =>
      cases hu : unlink s name with
      | ok s2 =>
        right; right; left
        refine ⟨s2, rfl, ?_⟩
        simp [deleteRoute, hcd, hbad, hu]
      | error e =>
        cases e with
        | enoent =>
          right; right; right; left
          simp [deleteRoute, hcd, hbad, hu]
        | other =>
          right; right; right; right
          simp [deleteRoute, hcd, hbad, hu]

theorem deleteRoute_200_inv (unlink : Store → List Char → Except UnlinkErr Store)
    (s : Store) (origin : Option String) (name : List Char)
    (h : (deleteRoute unlink s origin name).1.status = 200) :
    ∃ s2, unlink s name = Except.ok s2 ∧ (deleteRoute unlink s origin name).2 = s2 := by
  rcases deleteRoute_cases unlink s origin name with hc | hc | ⟨s2, hu, hc⟩ | hc | hc
  · rw [hc] at h
    simp [forbiddenResp] at h
  · rw [hc] at h
    simp at h
  · exact ⟨s2, hu, by rw [hc]⟩
  · rw [hc] at h
    simp at h
  · rw [hc] at h
    simp at h

theorem getImage_found (s : Store) (org : Option String) (name : List Char) (b : Bytes)
    (h : storeLookup s name = some b) :
    getImage s org name = { status := 200, message := "", body := some b } := by
  simp [getImage, h]

theorem getImage_missing (s : Store) (org : Option String) (name : List Char)
    (h : storeLookup s name = none) :
    getImage s org name = { status := 404, message := "" } := by
  simp [getImage, h]

/-! ## Claim theorems -/

/-- Claim C1: for every POST /upload or DELETE /delete/:filename request,
an absent origin or an origin not exactly string-equal to an entry of
`allowedDomainsForCRUD` produces the 403 forbidden response with its
human-readable message and leaves the store untouched, regardless of the
payload; an origin that exactly equals an entry passes the gate
(`checkDomain` yields `none`, so the request proceeds). -/
theorem originGate_spec (origin : Option String)
    (encode : Bytes → Except String Bytes) (uuid : List Char) (s : Store)
    (files : List UploadedFile) (name : List Char)
    (unlink : Store → List Char → Except UnlinkErr Store) :
    ((origin = none ∨ ∀ o : String, origin = some o → o ∉ allowedDomainsForCRUD) →
      postUpload encode uuid s origin files = (forbiddenResp, s) ∧
      deleteRoute unlink s origin name = (forbiddenResp, s) ∧
      forbiddenResp.status = 403) ∧
    (∀ o : String, origin = some o → o ∈ allowedDomainsForCRUD →
      checkDomain "POST" origin = none ∧ checkDomain "DELETE" origin = none) := by
  constructor
  · intro h
    have hp := checkDomain_denied "POST" (by decide) origin h
    have hd := checkDomain_denied "DELETE" (by decide) origin h
    refine ⟨?_, ?_, rfl⟩
    · simp [postUpload, hp]
    · simp [deleteRoute, hd]
  · intro o ho hmem
    subst ho
    exact ⟨checkDomain_allowed "POST" (by decide) o hmem,
           checkDomain_allowed "DELETE" (by decide) o hmem⟩

/-- Witness for C1 at concrete inputs: a non-listed origin and an absent
origin are both refused with 403, and a listed origin passes the gate. -/
theorem originGate_spec_witness :
    postUpload okEncode uuid0 [] (some "http://evil.example") [file0] = (forbiddenResp, []) ∧
    deleteRoute fsUnlink [] none "x.webp".toList = (forbiddenResp, []) ∧
    checkDomain "POST" (some origin0) = none := by
  refine ⟨?_, ?_, ?_⟩
  · exact ((originGate_spec (some "http://evil.example") okEncode uuid0 [] [file0]
      ("x.webp".toList) fsUnlink).1
      (Or.inr (by
        intro o h
        injection h with h
        subst h
        decide))).1
  · exact (((originGate_spec none okEncode uuid0 [] [file0]
      ("x.webp".toList) fsUnlink).1 (Or.inl rfl)).2).1
  · exact ((originGate_spec (some origin0) okEncode uuid0 [] [file0]
      ("x.webp".toList) fsUnlink).2 origin0 rfl (by decide)).1

/-- Claim C2: after a successful upload returning filename F, GET /images/F
answers 200 with exactly the re-encoded bytes for every caller origin
(including an absent one, reads being ungated); after a successful
DELETE /delete/F the same GET answers 404. -/
theorem store_roundTrip (encode : Bytes → Except String Bytes) (uuid : List Char)
    (s : Store) (o : String) (ho : o ∈ allowedDomainsForCRUD)
    (f : UploadedFile) (hmime : fileFilter f.mimetype = true)
    (hsize : f.buffer.length ≤ fileSizeLimit)
    (b : Bytes) (henc : encode f.buffer = Except.ok b) :
    (postUpload encode uuid s (some o) [f]).1.status = 201 ∧
    (postUpload encode uuid s (some o) [f]).1.filename =
        some (uniqueFilename f.originalname uuid) ∧
    (∀ org : Option String,
      getImage (postUpload encode uuid s (some o) [f]).2 org
          (uniqueFilename f.originalname uuid) =
        { status := 200, message := "", body := some b }) ∧
    (∀ org2 org3 : Option String,
      (deleteRoute fsUnlink (postUpload encode uuid s (some o) [f]).2 org2
          (uniqueFilename f.originalname uuid)).1.status = 200 →
      getImage (deleteRoute fsUnlink (postUpload encode uuid s (some o) [f]).2 org2
            (uniqueFilename f.originalname uuid)).2 org3
          (uniqueFilename f.originalname uuid) =
        { status := 404, message := "" }) := by
  have hpost := postUpload_success encode uuid s o ho f hmime hsize b henc
  rw [hpost]
  refine ⟨rfl, rfl, ?_, ?_⟩
  · intro org
    exact getImage_found _ org _ b (storeLookup_put_self s _ b)
  · intro org2 org3 h200
    rcases deleteRoute_200_inv fsUnlink (storePut s (uniqueFilename f.originalname uuid) b)
        org2 (uniqueFilename f.originalname uuid) h200 with ⟨s2, hu, hs2⟩
    rw [hs2]
    have hlk := storeLookup_put_self s (uniqueFilename f.originalname uuid) b
    have hdel : s2 = storeDel (storePut s (uniqueFilename f.originalname uuid) b)
        (uniqueFilename f.originalname uuid) := by
      unfold fsUnlink at hu
      rw [hlk] at hu
      simp at hu
      exact hu.symm
    rw [hdel]
    exact getImage_missing _ org3 _
      (storeLookup_del_self (storePut s (uniqueFilename f.originalname uuid) b)
        (uniqueFilename f.originalname uuid))

/-- Witness for C2 at concrete inputs: uploading `file0` from the allowed
origin stores a file that GET serves back, and a successful delete makes
the same GET answer 404. -/
theorem store_roundTrip_witness :
    (postUpload okEncode uuid0 [] (some origin0) [file0]).1.status = 201 ∧
    getImage (postUpload okEncode uuid0 [] (some origin0) [file0]).2 none
        (uniqueFilename file0.originalname uuid0) =
      { status := 200, message := "", body := some [1, 2, 3] } ∧
    getImage (deleteRoute fsUnlink (postUpload okEncode uuid0 [] (some origin0) [file0]).2
        (some origin0) (uniqueFilename file0.originalname uuid0)).2 none
        (uniqueFilename file0.originalname uuid0) =
      { status := 404, message := "" } := by
  have h := store_roundTrip okEncode uuid0 [] origin0 (by decide) file0 (by decide)
    (by decide) [1, 2, 3] rfl
  exact ⟨h.1, h.2.2.1 none, h.2.2.2 (some origin0) none (by decide)⟩

/-- Claim C3: a delete name containing a parent-directory segment or a path
separator character is answered with the 400 invalid-name validation
failure (distinct from the 404 not-found failure), the store is unchanged,
and no filesystem access occurs at all: the outcome is independent of the
unlink operation. -/
theorem delete_traversal_spec
    (unlink : Store → List Char → Except UnlinkErr Store) (s : Store)
    (o : String) (ho : o ∈ allowedDomainsForCRUD) (name : List Char)
    (h : dotdot ∈ name.splitOn '/' ∨ '/' ∈ name) :
    deleteRoute unlink s (some o) name =
      ({ status := 400, message := invalidNameMsg }, s) ∧
    (∀ unlink2, deleteRoute unlink2 s (some o) name = deleteRoute unlink s (some o) name) ∧
    invalidNameMsg ≠ notFoundMsg := by
  have hbad : (hasSub dotdot name || hasSub ['/'] name) = true := by
    by_cases hs : '/' ∈ name
    · simp [hasSub_singleton '/' name hs]
    · rcases h with h | h
      · rw [splitOn_no_sep name hs] at h
        simp at h
        rw [← h]
        simp [hasSub_self]
      · exact absurd h hs
  refine ⟨deleteRoute_invalid unlink s o ho name hbad, ?_, by decide⟩
  intro unlink2
  rw [deleteRoute_invalid unlink s o ho name hbad,
      deleteRoute_invalid unlink2 s o ho name hbad]

/-- Witness for C3: the classic traversal name is rejected with 400 and the
store stays as it was. -/
theorem delete_traversal_spec_witness :
    deleteRoute fsUnlink [] (some origin0) "../../etc/passwd".toList =
      ({ status := 400, message := invalidNameMsg }, []) := by
  exact (delete_traversal_spec fsUnlink [] origin0 (by decide)
    ("../../etc/passwd".toList) (Or.inr (by decide))).1

/-- Claim C4: for every original filename the generated storage name is
exactly the base label (directory components and extension stripped by
`parseName`), a hyphen separator, the canonical uuid token, and the fixed
`.webp` extension; hence it ends in `.webp` and is distinct from the
uploaded original name, and a successful single-file upload returns
exactly this name. -/
theorem uniqueFilename_spec (orig uuid : List Char) (hu : isCanonicalUuid uuid) :
    uniqueFilename orig uuid = (parseName orig ++ '-' :: uuid) ++ webpExt ∧
    (∃ stem, uniqueFilename orig uuid = stem ++ webpExt) ∧
    uniqueFilename orig uuid ≠ orig ∧
    (∀ (encode : Bytes → Except String Bytes) (s : Store) (o : String)
        (f : UploadedFile),
      (postUpload encode uuid s (some o) [f]).1.status = 201 →
      (postUpload encode uuid s (some o) [f]).1.filename =
        some (uniqueFilename f.originalname uuid)) := by
  refine ⟨rfl, ⟨parseName orig ++ '-' :: uuid, rfl⟩,
    uniqueFilename_ne orig uuid hu, ?_⟩
  intro encode s o f h201
  cases hcd : checkDomain "POST" (some o) with
  | some r =>
    have hr := checkDomain_some _ _ _ hcd
    subst hr
    simp [postUpload, hcd, forbiddenResp] at h201
  | none =>
    cases hms : multerSingle [f] with
    | error m => simp [postUpload, hcd, hms] at h201
    | ok fo =>
      cases fo with
      | none =>
        cases hpf : processFile f with
        | error m => simp [multerSingle, hpf] at hms
        | ok g => simp [multerSingle, hpf] at hms
      | some g =>
        have hfg : [f] = [g] := multerSingle_ok_some [f] g hms
        have hgf : g = f := by
          injection hfg with h1 _
          exact h1.symm
        subst hgf
        cases henc : encode g.buffer with
        | error em => simp [postUpload, hcd, hms, henc] at h201
        | ok b => simp [postUpload, hcd, hms, henc]

/-- Witness for C4: the concrete upload name for `cat.jpg` with the sample
uuid has the advertised shape and differs from the original name. -/
theorem uniqueFilename_spec_witness :
    uniqueFilename "cat.jpg".toList uuid0 ≠ "cat.jpg".toList ∧
    uniqueFilename "cat.jpg".toList uuid0 = ("cat".toList ++ '-' :: uuid0) ++ webpExt := by
  constructor
  · exact (uniqueFilename_spec ("cat.jpg".toList) uuid0 (by decide)).2.2.1
  · exact ((uniqueFilename_spec ("cat.jpg".toList) uuid0 (by decide)).1).trans (by decide)

/-- Claim C5: the upload filter accepts a file exactly when its declared
media type is one of the four listed image types, and any other declared
type yields a 400 response carrying the filter's message (so the caller
sees why). -/
theorem fileFilter_spec :
    (∀ mt : String, fileFilter mt = true ↔
      (mt = "image/jpeg" ∨ mt = "image/png" ∨ mt = "image/gif" ∨ mt = "image/webp")) ∧
    (∀ (encode : Bytes → Except String Bytes) (uuid : List Char) (s : Store)
        (o : String), o ∈ allowedDomainsForCRUD →
      ∀ (f : UploadedFile) (rest : List UploadedFile),
        fileFilter f.mimetype = false →
        postUpload encode uuid s (some o) (f :: rest) =
          ({ status := 400, message := invalidTypeMsg }, s)) := by
  constructor
  · intro mt
    simp [fileFilter, allowedMimes]
  · intro encode uuid s o ho f rest hff
    have hpf : processFile f = Except.error invalidTypeMsg := by
      simp [processFile, hff]
    have hms : multerSingle (f :: rest) = Except.error invalidTypeMsg := by
      simp [multerSingle, hpf]
    exact postUpload_multerErr encode uuid s o ho (f :: rest) invalidTypeMsg hms

/-- Witness for C5: `image/png` is accepted, `text/html` is refused with
the visible invalid-type message. -/
theorem fileFilter_spec_witness :
    fileFilter "image/png" = true ∧
    postUpload okEncode uuid0 [] (some origin0)
        [{ originalname := "x.html".toList, mimetype := "text/html", buffer := [0] }] =
      ({ status := 400, message := invalidTypeMsg }, []) := by
  constructor
  · exact (fileFilter_spec.1 "image/png").mpr (Or.inr (Or.inl rfl))
  · exact fileFilter_spec.2 okEncode uuid0 [] origin0 (by decide)
      { originalname := "x.html".toList, mimetype := "text/html", buffer := [0] }
      [] (by decide)

/-- Claim C6: with a valid delete name, a missing store entry always yields
the 404 not-found response (never a server error) and leaves the store
unchanged; an unlink error other than non-existence yields the 500
processing-failure response; successful removal yields 200 with a status
message and the entry removed. -/
theorem delete_errors_spec (s : Store) (o : String) (ho : o ∈ allowedDomainsForCRUD)
    (name : List Char)
    (hname : hasSub dotdot name = false ∧ hasSub ['/'] name = false) :
    (storeLookup s name = none →
      deleteRoute fsUnlink s (some o) name =
        ({ status := 404, message := notFoundMsg }, s)) ∧
    (∀ unlink : Store → List Char → Except UnlinkErr Store,
      unlink s name = Except.error UnlinkErr.other →
      deleteRoute unlink s (some o) name =
        ({ status := 500, message := deleteFailMsg }, s)) ∧
    (∀ b, storeLookup s name = some b →
      deleteRoute fsUnlink s (some o) name =
        ({ status := 200, message := deleteOkMsg }, storeDel s name)) := by
  have hgood : (hasSub dotdot name || hasSub ['/'] name) = false := by
    rw [hname.1, hname.2]
    rfl
  refine ⟨?_, ?_, ?_⟩
  · intro hlk
    have hu : fsUnlink s name = Except.error UnlinkErr.enoent := by
      simp [fsUnlink, hlk]
    exact deleteRoute_enoent fsUnlink s o ho name hgood hu
  · intro unlink hu
    exact deleteRoute_othererr unlink s o ho name hgood hu
  · intro b hlk
    have hu : fsUnlink s name = Except.ok (storeDel s name) := by
      simp [fsUnlink, hlk]
    exact deleteRoute_success fsUnlink s o ho name hgood (storeDel s name) hu

/-- Witness for C6: deleting a name absent from a concrete store answers
404; an `other` unlink error answers 500; deleting a present name answers
200 and removes it. -/
theorem delete_errors_spec_witness :
    deleteRoute fsUnlink [] (some origin0) "ghost.webp".toList =
      ({ status := 404, message := notFoundMsg }, []) ∧
    deleteRoute (fun _ _ => Except.error UnlinkErr.other) [] (some origin0)
        "ghost.webp".toList =
      ({ status := 500, message := deleteFailMsg }, []) ∧
    deleteRoute fsUnlink [("a.webp".toList, [7])] (some origin0) "a.webp".toList =
      ({ status := 200, message := deleteOkMsg },
        storeDel [("a.webp".toList, [7])] "a.webp".toList) := by
  have h1 := delete_errors_spec [] origin0 (by decide) ("ghost.webp".toList)
    (by constructor <;> decide)
  have h2 := delete_errors_spec [("a.webp".toList, [7])] origin0 (by decide)
    ("a.webp".toList) (by constructor <;> decide)
  exact ⟨h1.1 (by decide), h1.2.1 (fun _ _ => Except.error UnlinkErr.other) rfl,
         h2.2.2 [7] (by decide)⟩

/-- Claim C7: an upload whose byte length equals the 10MB ceiling is
accepted (and succeeds end to end when the encoder succeeds); one byte
over is rejected with the size-limit validation failure; and the
accept/reject verdict is already determined by the first ceiling+1 bytes
of the body, so rejection does not require buffering the full body. -/
theorem sizeLimit_spec :
    (∀ f : UploadedFile, fileFilter f.mimetype = true →
      f.buffer.length = fileSizeLimit → processFile f = Except.ok f) ∧
    (∀ f : UploadedFile, fileFilter f.mimetype = true →
      f.buffer.length = fileSizeLimit + 1 →
      processFile f = Except.error fileTooLargeMsg) ∧
    (∀ f : UploadedFile, isOkB (processFile f) =
      isOkB (processFile (truncateFile (fileSizeLimit + 1) f))) ∧
    (∀ (encode : Bytes → Except String Bytes) (uuid : List Char) (s : Store)
        (o : String), o ∈ allowedDomainsForCRUD →
      ∀ (f : UploadedFile) (b : Bytes), fileFilter f.mimetype = true →
        f.buffer.length = fileSizeLimit →
        encode f.buffer = Except.ok b →
        (postUpload encode uuid s (some o) [f]).1.status = 201) ∧
    (∀ (encode : Bytes → Except String Bytes) (uuid : List Char) (s : Store)
        (o : String), o ∈ allowedDomainsForCRUD →
      ∀ f : UploadedFile, fileFilter f.mimetype = true →
        f.buffer.length = fileSizeLimit + 1 →
        postUpload encode uuid s (some o) [f] =
          ({ status := 400, message := fileTooLargeMsg }, s)) := by
  refine ⟨?_, ?_, ?_, ?_, ?_⟩
  · intro f hmime hlen
    exact processFile_valid f hmime (le_of_eq hlen)
  · intro f hmime hlen
    have hnle : ¬ f.buffer.length ≤ fileSizeLimit := by omega
    simp [processFile, hmime, hnle]
  · intro f
    obtain ⟨nm, mt, buf⟩ := f
    by_cases hmt : fileFilter mt = true
    · by_cases hle : buf.length ≤ fileSizeLimit
      · have hle2 : (buf.take (fileSizeLimit + 1)).length ≤ fileSizeLimit := by
          rw [List.length_take]
          omega
        simp [truncateFile, processFile, hmt, hle, hle2, isOkB]
      · have hle2 : ¬ (buf.take (fileSizeLimit + 1)).length ≤ fileSizeLimit := by
          rw [List.length_take]
          omega
        simp [truncateFile, processFile, hmt, hle, hle2, isOkB]
    · simp [truncateFile, processFile, hmt, isOkB]
  · intro encode uuid s o ho f b hmime hlen henc
    rw [postUpload_success encode uuid s o ho f hmime (le_of_eq hlen) b henc]
  · intro encode uuid s o ho f hmime hlen
    have hnle : ¬ f.buffer.length ≤ fileSizeLimit := by omega
    have hpf : processFile f = Except.error fileTooLargeMsg := by
      simp [processFile, hmime, hnle]
    have hms : multerSingle [f] = Except.error fileTooLargeMsg := by
      simp [multerSingle, hpf]
    exact postUpload_multerErr encode uuid s o ho [f] fileTooLargeMsg hms

/-- Witness for C7: a jpeg whose length is exactly the ceiling is accepted
by the filter, and the truncation invariance holds on `file0`. -/
theorem sizeLimit_spec_witness :
    processFile { originalname := "a".toList, mimetype := "image/jpeg",
                  buffer := List.replicate fileSizeLimit 0 } =
      Except.ok { originalname := "a".toList, mimetype := "image/jpeg",
                  buffer := List.replicate fileSizeLimit 0 } ∧
    processFile { originalname := "a".toList, mimetype := "image/jpeg",
                  buffer := List.replicate (fileSizeLimit + 1) 0 } =
      Except.error fileTooLargeMsg ∧
    isOkB (processFile file0) = isOkB (processFile (truncateFile (fileSizeLimit + 1) file0)) := by
  refine ⟨?_, ?_, sizeLimit_spec.2.2.1 file0⟩
  · exact sizeLimit_spec.1 _ (by decide) (by simp)
  · exact sizeLimit_spec.2.1 _ (by decide) (by simp)

/-- Claim C8: a gated upload request with zero files gets its own 400
message, distinct from the wrong-type and too-large messages, and any
upload that succeeds carried exactly one file. -/
theorem singleFile_spec :
    (∀ (encode : Bytes → Except String Bytes) (uuid : List Char) (s : Store)
        (o : String), o ∈ allowedDomainsForCRUD →
      postUpload encode uuid s (some o) [] =
        ({ status := 400, message := noFileMsg }, s)) ∧
    noFileMsg ≠ invalidTypeMsg ∧ noFileMsg ≠ fileTooLargeMsg ∧
    (∀ (encode : Bytes → Except String Bytes) (uuid : List Char) (s : Store)
        (origin : Option String) (files : List UploadedFile),
      (postUpload encode uuid s origin files).1.status = 201 → files.length = 1) := by
  refine ⟨?_, by decide, by decide, ?_⟩
  · intro encode uuid s o ho
    exact postUpload_noFile encode uuid s o ho
  · intro encode uuid s origin files h
    rcases postUpload_201_inv encode uuid s origin files h with ⟨f, hf⟩
    rw [hf]
    rfl

/-- Witness for C8: the zero-file upload from the allowed origin yields the
dedicated no-file 400 response. -/
theorem singleFile_spec_witness :
    postUpload okEncode uuid0 [] (some origin0) [] =
      ({ status := 400, message := noFileMsg }, []) := by
  exact singleFile_spec.1 okEncode uuid0 [] origin0 (by decide)

/-- Counterexample for C9 as stated: on a decode/encode/filesystem failure
the handler answers 500 but also copies `error.message` verbatim into the
response's `error` field; a realistic `toFile` failure message embeds the
store path (`public/images`), so the error response does leak an internal
path. -/
theorem processFailure_leak_cex :
    (postUpload badEncode uuid0 [] (some origin0) [file0]).1.status = 500 ∧
    (postUpload badEncode uuid0 [] (some origin0) [file0]).1.errText = some leakMsg ∧
    hasSub storePathFragment leakMsg.toList = true := by
  decide

/-- Claim C9 as amended: every encoder failure during an otherwise-valid
upload is answered with status 500; the fixed `message` field contains no
path at all (no separator character), but the response echoes the raw
error message in its `error` field, which may contain internal paths. -/
theorem processFailure_spec (encode : Bytes → Except String Bytes) (uuid : List Char)
    (s : Store) (o : String) (ho : o ∈ allowedDomainsForCRUD)
    (f : UploadedFile) (hmime : fileFilter f.mimetype = true)
    (hsize : f.buffer.length ≤ fileSizeLimit)
    (em : String) (henc : encode f.buffer = Except.error em) :
    postUpload encode uuid s (some o) [f] =
      ({ status := 500, message := processErrMsg, errText := some em }, s) ∧
    hasSub ['/'] processErrMsg.toList = false := by
  exact ⟨postUpload_procfail encode uuid s o ho f hmime hsize em henc, by decide⟩

/-- Witness for C9 (amended) at concrete inputs. -/
theorem processFailure_spec_witness :
    postUpload badEncode uuid0 [] (some origin0) [file0] =
      ({ status := 500, message := processErrMsg, errText := some leakMsg }, []) := by
  exact (processFailure_spec badEncode uuid0 [] origin0 (by decide) file0 (by decide)
    (by decide) leakMsg rfl).1

/-- Claim C10: when the base label of an uploaded name contains consecutive
dots, the stored name generated by the upload pipeline itself contains
`..`, so every DELETE of that stored name is refused with the 400
invalid-name failure by gated callers, and no caller whatsoever can remove
it through the delete route (the store is always left unchanged). -/
theorem dotdotBase_spec (orig uuid : List Char)
    (h : hasSub dotdot (parseName orig) = true) :
    hasSub dotdot (uniqueFilename orig uuid) = true ∧
    (∀ (unlink : Store → List Char → Except UnlinkErr Store) (s : Store) (o : String),
      o ∈ allowedDomainsForCRUD →
      deleteRoute unlink s (some o) (uniqueFilename orig uuid) =
        ({ status := 400, message := invalidNameMsg }, s)) ∧
    (∀ (unlink : Store → List Char → Except UnlinkErr Store) (s : Store)
        (origin : Option String),
      (deleteRoute unlink s origin (uniqueFilename orig uuid)).2 = s ∧
      (deleteRoute unlink s origin (uniqueFilename orig uuid)).1.status ≠ 200) := by
  have hsubF : hasSub dotdot (uniqueFilename orig uuid) = true := by
    show hasSub dotdot ((parseName orig ++ '-' :: uuid) ++ webpExt) = true
    exact hasSub_append_left dotdot (parseName orig ++ '-' :: uuid) webpExt
      (hasSub_append_left dotdot (parseName orig) ('-' :: uuid) h)
  have hbad : (hasSub dotdot (uniqueFilename orig uuid) ||
      hasSub ['/'] (uniqueFilename orig uuid)) = true := by
    simp [hsubF]
  refine ⟨hsubF, ?_, ?_⟩
  · intro unlink s o ho
    exact deleteRoute_invalid unlink s o ho (uniqueFilename orig uuid) hbad
  · intro unlink s origin
    cases hcd : checkDomain "DELETE" origin with
    | some r =>
      have hr := checkDomain_some _ _ _ hcd
      subst hr
      constructor
      · simp [deleteRoute, hcd]
      · simp [deleteRoute, hcd, forbiddenResp]
    | none =>
      constructor
      · simp [deleteRoute, hcd, hbad]
      · simp [deleteRoute, hcd, hbad]

/-- Witness for C10: `my..cat.png` keeps its double-dot base label, the
stored name contains `..`, and its DELETE from the allowed origin is
refused with 400. -/
theorem dotdotBase_spec_witness :
    hasSub dotdot (uniqueFilename "my..cat.png".toList uuid0) = true ∧
    parseName "my..cat.png".toList = "my..cat".toList ∧
    deleteRoute fsUnlink [] (some origin0) (uniqueFilename "my..cat.png".toList uuid0) =
      ({ status := 400, message := invalidNameMsg }, []) := by
  have h := dotdotBase_spec ("my..cat.png".toList) uuid0 (by decide)
  exact ⟨h.1, by decide, h.2.1 fsUnlink [] origin0 (by decide)⟩

/-! ## Model sanity checks against Node's POSIX `path.parse(...).name` -/

-- sanity checks on the `path.parse(...).name` model (Node's POSIX behaviour)
example : parseName "cat.jpg".toList = "cat".toList := by decide
example : parseName "dir/a.b.png".toList = "a.b".toList := by decide
example : parseName ".bashrc".toList = ".bashrc".toList := by decide
example : parseName "..".toList = "..".toList := by decide
example : parseName "...".toList = "..".toList := by decide
example : parseName "a.".toList = "a".toList := by decide
example : parseName "my..cat.png".toList = "my..cat".toList := by decide
example : parseName "a/b/".toList = "b".toList := by decide
example : parseName "".toList = "".toList := by decide
example : hasSub dotdot "my..cat-1.webp".toList = true := by decide
example : hasSub ['/'] "a/b".toList = true := by decide
example : hasSub dotdot "cat-12.webp".toList = false := by decide
